import Mathlib

/-!
Verification of the sessions-dash server core (`server.py`): pricing
resolution, cost calculation, project-folder decoding, the usage
aggregator (`compute_usage`) and the session summarizer
(`compute_sessions`), shallowly embedded in Lean 4.

Monetary amounts are modelled as rationals; machine floats in the source
carry exact decimal rate constants and the claims under study concern
the arithmetic structure, not float rounding. Filesystem state (the log
tree, file modification times, `datetime.now()` and the filesystem
probing used by the folder decoder) is passed explicitly as data.
-/

namespace SessionsDash

/-- A per-million-token rate card (`MODEL_PRICING` values / `DEFAULT_PRICING`). -/
structure RateCard where
  input : ℚ
  output : ℚ
  cacheRead : ℚ
  cacheWrite : ℚ
  deriving Repr, DecidableEq

/-- The static pricing table `MODEL_PRICING` of server.py, as an exact-string lookup. -/
def MODEL_PRICING (model : String) : Option RateCard :=
  if model = "MiniMax-M2.5" then some ⟨0.30, 1.20, 0.03, 0.30⟩
  else if model = "MiniMax-M2.1" then some ⟨0.30, 1.20, 0.03, 0.30⟩
  else if model = "k2p5" then some ⟨0.60, 2.50, 0.10, 0.60⟩
  else if model = "kimi-k2.5" then some ⟨0.60, 2.50, 0.10, 0.60⟩
  else if model = "glm-4.7" then some ⟨0.60, 2.20, 0.11, 0.60⟩
  else if model = "claude-opus-4-6" then some ⟨15.00, 75.00, 1.50, 15.00⟩
  else if model = "claude-sonnet-4-6" then some ⟨3.00, 15.00, 0.30, 3.75⟩
  else if model = "claude-sonnet-4-5-20250929" then some ⟨3.00, 15.00, 0.30, 3.75⟩
  else if model = "claude-3-5-sonnet-20241022" then some ⟨3.00, 15.00, 0.30, 3.75⟩
  else if model = "claude-3-5-haiku-20241022" then some ⟨0.80, 4.00, 0.08, 0.80⟩
  else if model = "claude-haiku-4-5-20251001" then some ⟨0.80, 4.00, 0.08, 0.80⟩
  else none

/-- `DEFAULT_PRICING` of server.py. -/
def DEFAULT_PRICING : RateCard := ⟨1.00, 5.00, 0.10, 1.00⟩

/-- `MODEL_PRICING.get(model, DEFAULT_PRICING)` (server.py line 42). -/
def rates_for (model : String) : RateCard :=
  (MODEL_PRICING model).getD DEFAULT_PRICING

/-- A usage tally dict as accumulated by server.py: the four token
counters, plus the `estimatedCost` key which is absent (`none`) until
`compute_usage` writes it for the top-level by-model entries. -/
structure Tally where
  input : Nat
  output : Nat
  cacheRead : Nat
  cacheWrite : Nat
  estimatedCost : Option ℚ := none
  deriving Repr, DecidableEq

/-- `max(0, usage['input'] - usage['cacheRead'] - usage['cacheWrite'])`
(server.py line 43). Python ints subtract without clamping, hence `Int`. -/
def net_input (usage : Tally) : Int :=
  max 0 ((usage.input : Int) - (usage.cacheRead : Int) - (usage.cacheWrite : Int))

/-- `_cost(model, usage)` of server.py (lines 40-49). -/
def _cost (model : String) (usage : Tally) : ℚ :=
  let rates := rates_for model
  (net_input usage : ℚ) * rates.input / 1000000
    + (usage.output : ℚ) * rates.output / 1000000
    + (usage.cacheRead : ℚ) * rates.cacheRead / 1000000
    + (usage.cacheWrite : ℚ) * rates.cacheWrite / 1000000

/-- Round-half-to-even of a rational to an integer, the tie behaviour of
Python's builtin `round`. -/
def roundHalfEven (q : ℚ) : Int :=
  let f := ⌊q⌋
  if q - f < 1/2 then f
  else if (1:ℚ)/2 < q - f then f + 1
  else if f % 2 = 0 then f else f + 1

/-- Python `round(q, n)` on exact decimal values. -/
def round_py (n : Nat) (q : ℚ) : ℚ :=
  (roundHalfEven (q * 10 ^ n) : ℚ) / 10 ^ n

/-! ### Python string primitives

The scan uses Python `str` operations: slicing, `split`, `replace`,
`startswith`, `join` and code-point-lexicographic comparison. They are
given structural definitions over `String.data` so every concrete
instance reduces in the kernel. -/

/-- Python `s[:n]`. -/
def pyTake (s : String) (n : Nat) : String := ⟨s.data.take n⟩

/-- Python `s[n:]`. -/
def pyDrop (s : String) (n : Nat) : String := ⟨s.data.drop n⟩

/-- Python `s.startswith(pre)`. -/
def pyStartsWith (s pre : String) : Bool := pre.data.isPrefixOf s.data

/-- Python `a < b` on strings: lexicographic by code point. -/
def strLt (a b : String) : Bool :=
  strLtGo a.data b.data
where strLtGo : List Char → List Char → Bool
  | [], [] => false
  | [], _ :: _ => true
  | _ :: _, [] => false
  | c :: cs, d :: ds => if c < d then true else if d < c then false else strLtGo cs ds

/-- Left-to-right non-overlapping replacement of a non-empty pattern
(Python `s.replace(pat, rep)`; the program only replaces `"/"` and
`".jsonl"`). Structural recursion on a fuel argument kept at least the
input length (a non-empty match consumes at least one character, so the
fuel-exhausted branch is unreachable from `pyReplace`); an empty pattern
returns the input unchanged. -/
def replaceListGo (pat rep : List Char) : Nat → List Char → List Char
  | _, [] => []
  | 0, l => l
  | fuel + 1, c :: rest =>
    if pat ≠ [] ∧ pat.isPrefixOf (c :: rest) then
      rep ++ replaceListGo pat rep fuel ((c :: rest).drop pat.length)
    else c :: replaceListGo pat rep fuel rest

/-- Python `s.replace(pat, rep)`. -/
def pyReplace (s pat rep : String) : String :=
  ⟨replaceListGo pat.data rep.data s.data.length s.data⟩

/-- Python `s.split(sep)` for a single-character separator: never
returns the empty list (`''.split('-') == ['']`). -/
def splitCharGo (sep : Char) : List Char → List (List Char)
  | [] => [[]]
  | c :: rest =>
    let r := splitCharGo sep rest
    if c = sep then [] :: r
    else
      match r with
      | [] => [[c]]
      | h :: t => (c :: h) :: t

/-- Python `s.split(sep)` (single-character separator). -/
def pySplit (s : String) (sep : Char) : List String :=
  (splitCharGo sep s.data).map (fun l => ⟨l⟩)

/-- Python `sep.join(parts)`. -/
def joinWith (sep : String) : List String → String
  | [] => ""
  | [s] => s
  | s :: rest => s ++ sep ++ joinWith sep rest

/-- `entry.get('model') or msg.get('model', 'unknown')` (server.py lines
126 and 222): the top-level model when present and non-empty, else the
message-level model when the key is present, else the literal `unknown`. -/
def resolveModel (top : Option String) (msgModel : Option String) : String :=
  match top with
  | some s => if s = "" then msgModel.getD "unknown" else s
  | none => msgModel.getD "unknown"

/-- The inner `for j in range(len(parts), i, -1)` probe of
`_decode_project_folder`: the largest `k ≤ fuel` such that joining the
first `k` remaining tokens with hyphens names an existing directory
(existence probed by `ex` on the segment list under home). -/
def findLongestGo (ex : List String → Bool) (segs parts : List String) : Nat → Option Nat
  | 0 => none
  | k + 1 =>
    if ex (segs ++ [joinWith "-" (parts.take (k + 1))]) then some (k + 1)
    else findLongestGo ex segs parts k

/-- The probe starting from the full remaining token run. -/
def findLongest (ex : List String → Bool) (segs parts : List String) : Option Nat :=
  findLongestGo ex segs parts parts.length

theorem findLongestGo_pos {ex : List String → Bool} {segs parts : List String} :
    ∀ {n k : Nat}, findLongestGo ex segs parts n = some k → 1 ≤ k ∧ k ≤ n := by
  intro n
  induction n with
  | zero => intro k h; simp [findLongestGo] at h
  | succ m ih =>
    intro k h
    unfold findLongestGo at h
    split at h
    · cases h; omega
    · have := ih h; omega

/-- The `while i < len(parts)` reconstruction loop of
`_decode_project_folder` (server.py lines 62-80). `segs` is the list of
path segments already accepted under home (so `path = home ++ segs` and
`os.path.relpath(path, home)` is `segs` joined by `/`), `parts` the
remaining hyphen-split tokens, `matched` whether any probe succeeded
(Python's `best`). Structural recursion on a fuel argument kept at
least `parts.length` (every accepted probe consumes at least one token,
so the fuel-exhausted branch is unreachable from the decoder). -/
def decodeGo (ex : List String → Bool) (folder_name : String) :
    Nat → List String → List String → Bool → String
  | _, segs, [], matched =>
    if matched then "~/" ++ joinWith "/" segs else folder_name
  | 0, _, _ :: _, _ => folder_name
  | fuel + 1, segs, p :: ps, _ =>
    match findLongest ex segs (p :: ps) with
    | some k =>
      decodeGo ex folder_name fuel (segs ++ [joinWith "-" ((p :: ps).take k)])
        ((p :: ps).drop k) true
    | none =>
      if segs.isEmpty then "~/" ++ joinWith "-" (p :: ps)
      else "~/" ++ joinWith "/" segs ++ "/" ++ joinWith "-" (p :: ps)

/-- `_decode_project_folder(folder_name)` of server.py (lines 52-81),
with the home directory string and the filesystem-existence probe passed
explicitly. -/
def _decode_project_folder (ex : List String → Bool) (home : String)
    (folder_name : String) : String :=
  let home_encoded := "-" ++ pyDrop (pyReplace home "/" "-") 1
  if folder_name = home_encoded then "~"
  else
    let pre := home_encoded ++ "-"
    if pyStartsWith folder_name pre then
      let parts := pySplit (pyDrop folder_name pre.data.length) (Char.ofNat 45)
      decodeGo ex folder_name parts.length [] parts false
    else folder_name

/-! ### Log-tree model

A parsed JSON line, a session log file, a project directory. Python
dicts that the scan mutates in insertion order are modelled as
association lists (`List (String × _)`): lookup finds the first binding,
update rewrites it in place, a fresh key is appended. -/

/-- The `usage` payload of a record; `.get(key, 0)` makes a missing
counter indistinguishable from zero. -/
structure UsagePayload where
  input_tokens : Nat := 0
  output_tokens : Nat := 0
  cache_read_input_tokens : Nat := 0
  cache_creation_input_tokens : Nat := 0
  deriving Repr, DecidableEq

/-- The `message` object of a record. `usage := none` models a missing
or falsy (`{}`/null) usage payload, which both scans skip. -/
structure Msg where
  model : Option String := none
  usage : Option UsagePayload := none
  deriving Repr, DecidableEq

/-- One successfully decoded JSON record. `timestamp` is
`entry.get('timestamp', '')` (missing ≡ empty). `model` is the top-level
field, `none` when absent. `message := none` models a present
non-dict `message` value (the `isinstance` guard); a missing `message`
key is `some {}` (the `{}` default). -/
structure Record where
  timestamp : String := ""
  model : Option String := none
  message : Option Msg := some {}
  type : Option String := none
  deriving Repr, DecidableEq

/-- One raw line of a session file: the cheap substring markers checked
before JSON parsing, and the parse result (`none` = `JSONDecodeError`). -/
structure Line where
  blank : Bool := false
  has_ts : Bool := true
  has_usage : Bool := true
  has_type : Bool := false
  parsed : Option Record := none
  deriving Repr, DecidableEq

/-- A session log file: basename, modification time (abstract clock
ticks, `Int`), whether the per-file `try` succeeds at `getmtime`
(`ok`), and its lines. -/
structure SFile where
  name : String
  mtime : Int
  ok : Bool := true
  lines : List Line
  deriving Repr, DecidableEq

/-- A `listdir` entry of the root log directory with its files; `isDir`
is the `os.path.isdir` guard. -/
structure Project where
  folder : String
  isDir : Bool := true
  files : List SFile
  deriving Repr, DecidableEq

/-- Association-list lookup: Python `d.get(k)`. -/
def alGet {V : Type} (l : List (String × V)) (k : String) : Option V :=
  (l.find? (fun p => p.1 == k)).map Prod.snd

/-- `d[k] = d.get(k, 0) + 1` preserving insertion order. -/
def alIncr (l : List (String × Nat)) (k : String) : List (String × Nat) :=
  match l with
  | [] => [(k, 1)]
  | (k', v) :: rest => if k' = k then (k', v + 1) :: rest else (k', v) :: alIncr rest k

/-- `bucket[model] += usage` on the four counters (server.py lines
134-141); `estimatedCost` is untouched. -/
def addUsage (t : Tally) (u : UsagePayload) : Tally :=
  { t with
    input := t.input + u.input_tokens,
    output := t.output + u.output_tokens,
    cacheRead := t.cacheRead + u.cache_read_input_tokens,
    cacheWrite := t.cacheWrite + u.cache_creation_input_tokens }

/-- `if model not in bucket: bucket[model] = zeros` followed by the four
`+=` lines, preserving dict insertion order. -/
def alBump (l : List (String × Tally)) (k : String) (u : UsagePayload) :
    List (String × Tally) :=
  match l with
  | [] => [(k, addUsage ⟨0, 0, 0, 0, none⟩ u)]
  | (k', v) :: rest =>
    if k' = k then (k', addUsage v u) :: rest else (k', v) :: alBump rest k u

/-- `by_day.setdefault(day_str, {})` plus the model bump inside it. -/
def alBumpDay (l : List (String × List (String × Tally))) (day k : String)
    (u : UsagePayload) : List (String × List (String × Tally)) :=
  match l with
  | [] => [(day, alBump [] k u)]
  | (d, m) :: rest =>
    if d = day then (d, alBump m k u) :: rest else (d, m) :: alBumpDay rest day k u

/-- The three accumulators of `compute_usage`. -/
structure UState where
  by_model : List (String × Tally) := []
  by_day : List (String × List (String × Tally)) := []
  sessions_by_day : List (String × Nat) := []
  deriving Repr, DecidableEq

/-- The body of `compute_usage`'s per-line loop (server.py lines 109-141). -/
def processUsageLine (cutoff_str session_day : String) (st : UState) (ln : Line) :
    UState :=
  if ln.blank || !ln.has_usage then st else
  match ln.parsed with
  | none => st
  | some entry =>
    let ts := entry.timestamp
    if ts ≠ "" ∧ strLt (pyTake ts 10) cutoff_str then st else
    match entry.message with
    | none => st
    | some msg =>
      match msg.usage with
      | none => st
      | some usage =>
        let model := resolveModel entry.model msg.model
        if pyStartsWith model "<" then st else
        let day_str := if ts ≠ "" then pyTake ts 10 else session_day
        { st with
          by_model := alBump st.by_model model usage,
          by_day := alBumpDay st.by_day day_str model usage }

/-- `compute_usage`'s per-file step (server.py lines 100-143): skip
unreadable files, skip files modified before the cutoff, count the
session against its modification day, then fold the lines. -/
def processUsageFile (cutoff : Int) (cutoff_str : String) (fmtDay : Int → String)
    (st : UState) (f : SFile) : UState :=
  if !f.ok then st
  else if f.mtime < cutoff then st
  else
    let session_day := fmtDay f.mtime
    let st := { st with sessions_by_day := alIncr st.sessions_by_day session_day }
    f.lines.foldl (processUsageLine cutoff_str session_day) st

/-- One entry of the `byDay` list. -/
structure DayBucket where
  date : String
  models : List (String × Tally)
  sessions : Nat
  deriving Repr, DecidableEq

/-- The value returned by `compute_usage`. -/
structure UsageResult where
  byModel : List (String × Tally)
  byDay : List DayBucket
  totalEstimatedCost : ℚ
  totalSessions : Nat
  days : Nat
  deriving Repr, DecidableEq

/-- `{m: u for m, u in d.items() if (u['input'] + u['output']) > 0}`. -/
def tallyFilter (l : List (String × Tally)) : List (String × Tally) :=
  l.filter (fun p => 0 < p.2.input + p.2.output)

/-- The per-project step of `compute_usage` (server.py lines 96-100):
skip `listdir` entries that are not directories, else fold the
project's session files. -/
def usageProjStep (cutoff : Int) (cutoff_str : String) (fmtDay : Int → String)
    (st : UState) (proj : Project) : UState :=
  if !proj.isDir then st
  else proj.files.foldl (processUsageFile cutoff cutoff_str fmtDay) st

/-- `compute_usage(days)` of server.py (lines 84-165). `tree` is the
root log directory (`none` = missing), `cutoff` is `now - timedelta(days)`
on the abstract clock, and `fmtDay` renders a clock value as its
`%Y-%m-%d` string (so `cutoff_str = fmtDay cutoff`). -/
def compute_usage (tree : Option (List Project)) (cutoff : Int)
    (fmtDay : Int → String) (days : Nat) : UsageResult :=
  match tree with
  | none =>
    { byModel := [], byDay := [], totalEstimatedCost := 0, totalSessions := 0,
      days := days }
  | some projects =>
    let cutoff_str := fmtDay cutoff
    let st := projects.foldl (usageProjStep cutoff cutoff_str fmtDay) ({} : UState)
    let by_model := (tallyFilter st.by_model).map
      (fun p => (p.1, { p.2 with estimatedCost := some (round_py 4 (_cost p.1 p.2)) }))
    let by_day_list := List.insertionSort (fun a b : DayBucket => b.date ≤ a.date)
      ((st.by_day.filter (fun p => !p.2.isEmpty)).map
        (fun p =>
          { date := p.1, models := tallyFilter p.2,
            sessions := (alGet st.sessions_by_day p.1).getD 0 }))
    { byModel := by_model,
      byDay := by_day_list,
      totalEstimatedCost :=
        round_py 2 (by_model.foldl (fun acc p => acc + p.2.estimatedCost.getD 0) 0),
      totalSessions := st.sessions_by_day.foldl (fun acc p => acc + p.2) 0,
      days := days }

/-- Per-session scan state of `compute_sessions`. `first_ts`/`last_ts`
never hold the empty string, so `Option` matches Python's
`None`-or-nonempty truthiness. -/
structure SState where
  by_model : List (String × Tally) := []
  first_ts : Option String := none
  last_ts : Option String := none
  msg_count : Nat := 0
  deriving Repr, DecidableEq

/-- The body of `compute_sessions`'s per-line loop (server.py lines
194-230). -/
def processSessionLine (st : SState) (ln : Line) : SState :=
  if ln.blank then st else
  if !ln.has_ts && !ln.has_usage && !ln.has_type then st else
  match ln.parsed with
  | none => st
  | some entry =>
    let st :=
      if ln.has_ts then
        let ts := entry.timestamp
        if ts ≠ "" then
          { st with first_ts := some (st.first_ts.getD ts), last_ts := some ts }
        else st
      else st
    let st :=
      if ln.has_type ∧ (entry.type = some "user" ∨ entry.type = some "assistant") then
        { st with msg_count := st.msg_count + 1 }
      else st
    if !ln.has_usage then st else
    match entry.message with
    | none => st
    | some msg =>
      match msg.usage with
      | none => st
      | some usage =>
        let model := resolveModel entry.model msg.model
        if pyStartsWith model "<" then st
        else { st with by_model := alBump st.by_model model usage }

/-- Python `max(by_model, key=...)`: the first key attaining the maximal
input+output sum (later elements replace only on a strictly larger key). -/
def firstMaxGo (best : String) (bestv : Nat) : List (String × Tally) → String
  | [] => best
  | (m, u) :: rest =>
    if bestv < u.input + u.output then firstMaxGo m (u.input + u.output) rest
    else firstMaxGo best bestv rest

/-- `max(by_model, key=lambda m: input+output)` over a non-empty
association list (returns `""` on the empty list, which the caller
excludes). -/
def firstMax (l : List (String × Tally)) : String :=
  match l with
  | [] => ""
  | (m, u) :: rest => firstMaxGo m (u.input + u.output) rest

/-- One row of the sessions query output. -/
structure SessionRow where
  sessionId : String
  project : String
  date : String
  primaryModel : String
  totalInput : Nat
  totalOutput : Nat
  msgCount : Nat
  estimatedCost : ℚ
  mtime : Int
  deriving Repr, DecidableEq

/-- `compute_sessions`'s per-file step (server.py lines 183-253):
recency filter, line scan, drop sessions with no surviving model, else
append the summary row. `fmtIso` renders a clock value as its ISO-8601
string (the `isoformat` fallback for the date). -/
def processSessionFile (cutoff : Int) (fmtIso : Int → String)
    (project_display : String) (acc : List SessionRow) (f : SFile) :
    List SessionRow :=
  if !f.ok then acc
  else if f.mtime < cutoff then acc
  else
    let session_id := pyReplace f.name ".jsonl" ""
    let st := f.lines.foldl processSessionLine {}
    let bm := tallyFilter st.by_model
    if bm.isEmpty then acc
    else
      acc ++ [{ sessionId := session_id,
                project := project_display,
                date := pyTake ((st.last_ts.orElse (fun _ => st.first_ts)).getD
                  (fmtIso f.mtime)) 10,
                primaryModel := firstMax bm,
                totalInput := bm.foldl (fun a p => a + p.2.input) 0,
                totalOutput := bm.foldl (fun a p => a + p.2.output) 0,
                msgCount := st.msg_count,
                estimatedCost := round_py 4 (bm.foldl (fun a p => a + _cost p.1 p.2) 0),
                mtime := f.mtime }]

/-- The per-project step of `compute_sessions` (server.py lines
177-183): skip non-directories, decode the project folder name once,
then fold the project's session files. -/
def sessionsProjStep (ex : List String → Bool) (home : String) (cutoff : Int)
    (fmtIso : Int → String) (acc : List SessionRow) (proj : Project) : List SessionRow :=
  if !proj.isDir then acc
  else
    proj.files.foldl
      (processSessionFile cutoff fmtIso (_decode_project_folder ex home proj.folder))
      acc

/-- All session rows collected before sorting and truncation (the
`sessions` list as of server.py line 254). `ex`/`home` feed the project
folder decoder. -/
def sessionRows (ex : List String → Bool) (home : String)
    (projects : List Project) (cutoff : Int) (fmtIso : Int → String) :
    List SessionRow :=
  projects.foldl (sessionsProjStep ex home cutoff fmtIso) []

/-- The value returned by `compute_sessions`. -/
structure SessionsResult where
  sessions : List SessionRow
  total : Nat
  days : Nat
  deriving Repr, DecidableEq

/-- `compute_sessions(days, limit)` of server.py (lines 168-256): collect
rows, sort by modification time descending (Python's stable sort,
modelled by the stable `insertionSort`), return the first `limit` rows
and the untruncated count. -/
def compute_sessions (tree : Option (List Project)) (ex : List String → Bool)
    (home : String) (cutoff : Int) (fmtIso : Int → String) (days limit : Nat) :
    SessionsResult :=
  match tree with
  | none => { sessions := [], total := 0, days := days }
  | some projects =>
    let rows := sessionRows ex home projects cutoff fmtIso
    let sorted := List.insertionSort (fun a b : SessionRow => b.mtime ≤ a.mtime) rows
    { sessions := sorted.take limit, total := rows.length, days := days }

/-! ### Helper lemmas -/

theorem _cost_eq (m : String) (u : Tally) :
    _cost m u =
      ((net_input u : ℚ) * (rates_for m).input + (u.output : ℚ) * (rates_for m).output
        + (u.cacheRead : ℚ) * (rates_for m).cacheRead
        + (u.cacheWrite : ℚ) * (rates_for m).cacheWrite) / 1000000 := by
  unfold _cost
  ring

set_option maxHeartbeats 1000000 in
theorem rates_nonneg (m : String) :
    0 ≤ (rates_for m).input ∧ 0 ≤ (rates_for m).output
      ∧ 0 ≤ (rates_for m).cacheRead ∧ 0 ≤ (rates_for m).cacheWrite := by
  unfold rates_for MODEL_PRICING
  split_ifs <;> simp only [Option.getD_some, Option.getD_none] <;> norm_num [DEFAULT_PRICING]

set_option maxHeartbeats 1000000 in
theorem rates_cacheWrite_ge (m : String) :
    (rates_for m).input ≤ (rates_for m).cacheWrite := by
  unfold rates_for MODEL_PRICING
  split_ifs <;> simp only [Option.getD_some, Option.getD_none] <;> norm_num [DEFAULT_PRICING]

theorem net_input_nonneg (u : Tally) : (0 : Int) ≤ net_input u :=
  le_max_left _ _

theorem sub_max_le (a d : Int) (hd : 0 ≤ d) : max 0 a - max 0 (a - d) ≤ d := by
  rcases max_cases 0 a with ⟨h1, h1'⟩ | ⟨h1, h1'⟩ <;>
    rcases max_cases 0 (a - d) with ⟨h2, h2'⟩ | ⟨h2, h2'⟩ <;>
      rw [h1, h2] <;> omega

theorem cost_le_of_components (m : String) (u v : Tally)
    (hnet : net_input u ≤ net_input v) (hout : u.output ≤ v.output)
    (hcr : u.cacheRead ≤ v.cacheRead) (hcw : u.cacheWrite ≤ v.cacheWrite) :
    _cost m u ≤ _cost m v := by
  obtain ⟨hi, ho, hr, hw⟩ := rates_nonneg m
  rw [_cost_eq, _cost_eq]
  have h1 : (net_input u : ℚ) * (rates_for m).input
      ≤ (net_input v : ℚ) * (rates_for m).input :=
    mul_le_mul_of_nonneg_right (by exact_mod_cast hnet) hi
  have h2 : (u.output : ℚ) * (rates_for m).output
      ≤ (v.output : ℚ) * (rates_for m).output :=
    mul_le_mul_of_nonneg_right (by exact_mod_cast hout) ho
  have h3 : (u.cacheRead : ℚ) * (rates_for m).cacheRead
      ≤ (v.cacheRead : ℚ) * (rates_for m).cacheRead :=
    mul_le_mul_of_nonneg_right (by exact_mod_cast hcr) hr
  have h4 : (u.cacheWrite : ℚ) * (rates_for m).cacheWrite
      ≤ (v.cacheWrite : ℚ) * (rates_for m).cacheWrite :=
    mul_le_mul_of_nonneg_right (by exact_mod_cast hcw) hw
  linarith

/-! ### Claims -/

/-- The cost formula in the words of the spec (§4.2 and §8):
`netInput = max(0, input − cacheRead − cacheWrite)`, then
`(netInput·rate.input + output·rate.output + cacheRead·rate.cacheRead +
cacheWrite·rate.cacheWrite) / 1,000,000` under the model's rate card
(default card when the model is not in the pricing table). Stated as a
separate definition to compare against `_cost` from the source. -/
def cost_spec (model : String) (u : Tally) : ℚ :=
  let rate := rates_for model
  let netInput : Int := max 0 ((u.input : Int) - (u.cacheRead : Int) - (u.cacheWrite : Int))
  ((netInput : ℚ) * rate.input + (u.output : ℚ) * rate.output
    + (u.cacheRead : ℚ) * rate.cacheRead + (u.cacheWrite : ℚ) * rate.cacheWrite) / 1000000

/-- C1: for every model and tally, `_cost` returns
`(max(0, input − cacheRead − cacheWrite)·rate.input + output·rate.output
+ cacheRead·rate.cacheRead + cacheWrite·rate.cacheWrite) / 1,000,000`
under the model's rate card (default card on a pricing miss); in
particular the tally `{input:100000, output:50000, cacheRead:10000,
cacheWrite:5000}` under the `claude-sonnet-4-6` card
`{3.00, 15.00, 0.30, 3.75}` costs exactly `1.02675`. -/
theorem cost_matches_spec_formula :
    (∀ (model : String) (u : Tally), _cost model u = cost_spec model u)
    ∧ _cost "claude-sonnet-4-6"
        { input := 100000, output := 50000, cacheRead := 10000, cacheWrite := 5000 }
      = 102675 / 100000 := by
  constructor
  · intro m u
    unfold _cost cost_spec net_input
    ring
  · have hr : rates_for "claude-sonnet-4-6" = ⟨3.00, 15.00, 0.30, 3.75⟩ := rfl
    rw [_cost_eq, hr]
    norm_num [net_input]

/-- C2 counterexample: at the `claude-sonnet-4-6` card, raising
`cacheRead` from 0 to 1 with `{input:2, output:0, cacheWrite:0}` held
fixed strictly lowers the cost (6/10⁶ drops to 3.3/10⁶), so the cost is
not monotonically non-decreasing in each of the four counters. -/
theorem cost_decreasing_in_cacheRead :
    _cost "claude-sonnet-4-6" { input := 2, output := 0, cacheRead := 1, cacheWrite := 0 }
      < _cost "claude-sonnet-4-6" { input := 2, output := 0, cacheRead := 0, cacheWrite := 0 } := by
  have hr : rates_for "claude-sonnet-4-6" = ⟨3.00, 15.00, 0.30, 3.75⟩ := rfl
  rw [_cost_eq, _cost_eq, hr]
  norm_num [net_input]

/-- C2 amended: for every model and tally the computed cost is
monotonically non-decreasing in the `input`, `output` and `cacheWrite`
counters individually, holding the other three counters and the rate
card fixed (every rate card of the table and the default price cache
writes at or above the input rate); it can strictly decrease in
`cacheRead`. -/
theorem cost_monotone_in_input_output_cacheWrite (m : String) (u : Tally) (d : Nat) :
    _cost m u ≤ _cost m { u with input := u.input + d }
    ∧ _cost m u ≤ _cost m { u with output := u.output + d }
    ∧ _cost m u ≤ _cost m { u with cacheWrite := u.cacheWrite + d } := by
  refine ⟨?_, ?_, ?_⟩
  · refine cost_le_of_components m u _ ?_ le_rfl le_rfl le_rfl
    unfold net_input
    dsimp only
    refine max_le_max le_rfl ?_
    push_cast
    omega
  · exact cost_le_of_components m u _ le_rfl (Nat.le_add_right _ _) le_rfl le_rfl
  · obtain ⟨hi, ho, hr, hw⟩ := rates_nonneg m
    have hwi := rates_cacheWrite_ge m
    rw [_cost_eq, _cost_eq]
    have hb : net_input { u with cacheWrite := u.cacheWrite + d } ≤ net_input u := by
      unfold net_input
      dsimp only
      refine max_le_max le_rfl ?_
      push_cast
      omega
    have hab : net_input u - net_input { u with cacheWrite := u.cacheWrite + d } ≤ (d : Int) := by
      unfold net_input
      dsimp only
      have h := sub_max_le ((u.input : Int) - (u.cacheRead : Int) - (u.cacheWrite : Int)) d
        (by positivity)
      have he : (u.input : Int) - (u.cacheRead : Int) - (u.cacheWrite : Int) - (d : Int)
          = (u.input : Int) - (u.cacheRead : Int) - ((u.cacheWrite + d : Nat) : Int) := by
        push_cast
        ring
      rw [he] at h
      exact h
    have hbQ : (net_input { u with cacheWrite := u.cacheWrite + d } : ℚ) ≤ (net_input u : ℚ) := by
      exact_mod_cast hb
    have habQ : (net_input u : ℚ) - (net_input { u with cacheWrite := u.cacheWrite + d } : ℚ)
        ≤ (d : ℚ) := by exact_mod_cast hab
    have hstep1 : ((net_input u : ℚ) - (net_input { u with cacheWrite := u.cacheWrite + d } : ℚ))
        * (rates_for m).input ≤ (d : ℚ) * (rates_for m).input :=
      mul_le_mul_of_nonneg_right habQ hi
    have hstep2 : (d : ℚ) * (rates_for m).input ≤ (d : ℚ) * (rates_for m).cacheWrite :=
      mul_le_mul_of_nonneg_left hwi (by positivity)
    have hproj1 : ({ u with cacheWrite := u.cacheWrite + d } : Tally).output = u.output := rfl
    have hproj2 : ({ u with cacheWrite := u.cacheWrite + d } : Tally).cacheRead = u.cacheRead := rfl
    have hproj3 : ({ u with cacheWrite := u.cacheWrite + d } : Tally).cacheWrite
        = u.cacheWrite + d := rfl
    rw [hproj1, hproj2, hproj3]
    have hcast : ((u.cacheWrite + d : Nat) : ℚ) = (u.cacheWrite : ℚ) + (d : ℚ) := by push_cast; ring
    rw [hcast]
    linarith

/-- C5: for every model and tally, when `cacheRead + cacheWrite` exceed
`input` the net input used by `_cost` clamps to zero, and the cost is
never negative. -/
theorem cost_never_negative (m : String) (u : Tally) :
    (u.input < u.cacheRead + u.cacheWrite → net_input u = 0) ∧ 0 ≤ _cost m u := by
  constructor
  · intro h
    unfold net_input
    apply max_eq_left
    omega
  · obtain ⟨hi, ho, hr, hw⟩ := rates_nonneg m
    rw [_cost_eq]
    have h0 : (0 : ℚ) ≤ (net_input u : ℚ) := by exact_mod_cast net_input_nonneg u
    have h1 := mul_nonneg h0 hi
    have h2 := mul_nonneg (show (0:ℚ) ≤ (u.output : ℚ) by positivity) ho
    have h3 := mul_nonneg (show (0:ℚ) ≤ (u.cacheRead : ℚ) by positivity) hr
    have h4 := mul_nonneg (show (0:ℚ) ≤ (u.cacheWrite : ℚ) by positivity) hw
    apply div_nonneg _ (by norm_num)
    linarith

/-- C5 witness: a concrete tally with `cacheRead + cacheWrite > input`
clamps to zero net input and yields a non-negative cost. -/
theorem cost_never_negative_witness :
    net_input { input := 1, output := 0, cacheRead := 2, cacheWrite := 3 } = 0
    ∧ 0 ≤ _cost "mystery-model" { input := 1, output := 0, cacheRead := 2, cacheWrite := 3 } :=
  ⟨(cost_never_negative "mystery-model"
      { input := 1, output := 0, cacheRead := 2, cacheWrite := 3 }).1 (by norm_num),
   (cost_never_negative "mystery-model"
      { input := 1, output := 0, cacheRead := 2, cacheWrite := 3 }).2⟩

/-- C9: the project path decoder acts as the identity on every input
that is neither exactly the encoded home directory nor prefixed by the
encoded home followed by a hyphen separator, for every home directory
and every filesystem state. -/
theorem decode_unrelated_identity (ex : List String → Bool) (home folder : String)
    (h1 : folder ≠ "-" ++ pyDrop (pyReplace home "/" "-") 1)
    (h2 : pyStartsWith folder (("-" ++ pyDrop (pyReplace home "/" "-") 1) ++ "-") = false) :
    _decode_project_folder ex home folder = folder := by
  unfold _decode_project_folder
  rw [if_neg h1]
  simp [h2]

/-- C9 witness: with home `/home/asus`, the unrelated folder name
`some-random-folder` decodes to itself. -/
theorem decode_unrelated_identity_witness :
    _decode_project_folder (fun _ => true) "/home/asus" "some-random-folder"
      = "some-random-folder" :=
  decode_unrelated_identity (fun _ => true) "/home/asus" "some-random-folder"
    (by decide) (by decide)

/-- A log line whose record has both a top-level model (`modelA`) and a
message-level model (`modelB`). -/
def modelPick_line : Line :=
  { has_usage := true,
    parsed := some { timestamp := "2024-06-01T00:00:00Z", model := some "modelA",
                     message := some { model := some "modelB",
                                       usage := some { input_tokens := 5, output_tokens := 2 } } } }

/-- A one-file log tree holding `modelPick_line`. -/
def modelPick_tree : Option (List Project) :=
  some [{ folder := "proj", files := [{ name := "sess.jsonl", mtime := 50, lines := [modelPick_line] }] }]

/-- A clock rendering placing the cutoff on 2024-05-30. -/
def demoFmt : Int → String := fun t => if t = 0 then "2024-05-30" else "2024-06-01"

/-- C10: `entry.get('model') or msg.get('model', 'unknown')` attributes
usage to the top-level model whenever it is present and non-empty, falls
back to the message-level model when the top-level one is absent or
empty, and to the literal `unknown` when both are missing; and on a
record carrying both fields, the usage aggregator's by-model bucket and
the session summarizer's primary model both use the top-level name. -/
theorem model_attribution :
    (∀ (a : String) (b : Option String), a ≠ "" → resolveModel (some a) b = a)
    ∧ (∀ b : Option String, resolveModel none b = b.getD "unknown")
    ∧ resolveModel none none = "unknown"
    ∧ (∀ b : String, resolveModel (some "") (some b) = b)
    ∧ ((compute_usage modelPick_tree 0 demoFmt 7).byModel.map Prod.fst = ["modelA"])
    ∧ ((compute_sessions modelPick_tree (fun _ => false) "/home/u" 0 demoFmt 7 50).sessions.map
        (fun s => s.primaryModel) = ["modelA"]) := by
  refine ⟨?_, ?_, rfl, ?_, ?_, ?_⟩
  · intro a b h
    simp [resolveModel, h]
  · intro b
    rfl
  · intro b
    rfl
  · decide
  · decide

/-- C10 witness: the fallback chain at concrete model names. -/
theorem model_attribution_witness :
    resolveModel (some "modelA") (some "modelB") = "modelA"
    ∧ resolveModel none (some "modelB") = "modelB" :=
  ⟨model_attribution.1 "modelA" (some "modelB") (by decide),
   model_attribution.2.1 (some "modelB")⟩

theorem foldl_fixed {α β : Type} (f : β → α → β) (init : β) (l : List α)
    (h : ∀ b a, a ∈ l → f b a = b) : l.foldl f init = init := by
  induction l generalizing init with
  | nil => rfl
  | cons a t ih =>
    rw [List.foldl_cons, h init a (by simp)]
    exact ih init (fun b x hx => h b x (by simp [hx]))

theorem round_py_zero (n : Nat) : round_py n 0 = 0 := by
  unfold round_py roundHalfEven
  norm_num

/-- C7: a missing root log directory, and a root directory whose
projects contain no session files, both yield the all-empty usage
result (`byModel = {}`, `byDay = []`, zero total cost, zero sessions)
and the empty sessions result (`sessions = []`, `total = 0`), each
echoing the window size; no error is raised (the functions are total). -/
theorem empty_tree_results (cutoff : Int) (fmtDay fmtIso : Int → String)
    (ex : List String → Bool) (home : String) (days limit : Nat)
    (ps : List Project) (hps : ∀ p ∈ ps, p.files = []) :
    compute_usage none cutoff fmtDay days
        = { byModel := [], byDay := [], totalEstimatedCost := 0, totalSessions := 0, days := days }
    ∧ compute_usage (some ps) cutoff fmtDay days
        = { byModel := [], byDay := [], totalEstimatedCost := 0, totalSessions := 0, days := days }
    ∧ compute_sessions none ex home cutoff fmtIso days limit
        = { sessions := [], total := 0, days := days }
    ∧ compute_sessions (some ps) ex home cutoff fmtIso days limit
        = { sessions := [], total := 0, days := days } := by
  refine ⟨rfl, ?_, rfl, ?_⟩
  · unfold compute_usage
    dsimp only
    rw [foldl_fixed _ _ ps
      (fun st p hp => by simp [usageProjStep, hps p hp])]
    simp [tallyFilter, round_py_zero]
  · unfold compute_sessions sessionRows
    dsimp only
    rw [foldl_fixed _ _ ps
      (fun acc p hp => by simp [sessionsProjStep, hps p hp])]
    simp

/-- C7 witness: concrete empty trees produce the empty outputs. -/
theorem empty_tree_results_witness :
    compute_usage (some [{ folder := "p", files := [] }]) 0 demoFmt 7
        = { byModel := [], byDay := [], totalEstimatedCost := 0, totalSessions := 0, days := 7 }
    ∧ compute_sessions (some [{ folder := "p", files := [] }]) (fun _ => false) "/home/u" 0
        demoFmt 7 50 = { sessions := [], total := 0, days := 7 } :=
  ⟨(empty_tree_results 0 demoFmt demoFmt (fun _ => false) "/home/u" 7 50
      [{ folder := "p", files := [] }] (by simp)).2.1,
   (empty_tree_results 0 demoFmt demoFmt (fun _ => false) "/home/u" 7 50
      [{ folder := "p", files := [] }] (by simp)).2.2.2⟩

/-- The session rows a sessions query collects before sorting and
truncation (`none` root collects nothing). -/
def collectedRows (tree : Option (List Project)) (ex : List String → Bool)
    (home : String) (cutoff : Int) (fmtIso : Int → String) : List SessionRow :=
  match tree with
  | none => []
  | some ps => sessionRows ex home ps cutoff fmtIso

/-- C6: for every log tree and row limit, the sessions query returns
the collected rows sorted by file modification time descending,
truncated to exactly `min(limit, total matching)` rows, with the
reported total equal to the number of matching sessions before
truncation, and every returned row among the collected ones. -/
theorem sessions_sorted_and_truncated (tree : Option (List Project))
    (ex : List String → Bool) (home : String) (cutoff : Int)
    (fmtIso : Int → String) (days limit : Nat) :
    (compute_sessions tree ex home cutoff fmtIso days limit).sessions.length
        = min limit (compute_sessions tree ex home cutoff fmtIso days limit).total
    ∧ List.Sorted (fun a b : SessionRow => b.mtime ≤ a.mtime)
        (compute_sessions tree ex home cutoff fmtIso days limit).sessions
    ∧ (compute_sessions tree ex home cutoff fmtIso days limit).total
        = (collectedRows tree ex home cutoff fmtIso).length
    ∧ (compute_sessions tree ex home cutoff fmtIso days limit).sessions
        ⊆ collectedRows tree ex home cutoff fmtIso := by
  haveI : IsTotal SessionRow (fun a b : SessionRow => b.mtime ≤ a.mtime) :=
    ⟨fun a b => le_total b.mtime a.mtime⟩
  haveI : IsTrans SessionRow (fun a b : SessionRow => b.mtime ≤ a.mtime) :=
    ⟨fun _ _ _ hab hbc => le_trans hbc hab⟩
  cases tree with
  | none =>
    refine ⟨by simp [compute_sessions], by simp [compute_sessions], rfl, ?_⟩
    intro s hs
    simp [compute_sessions] at hs
  | some ps =>
    unfold compute_sessions
    dsimp only
    refine ⟨?_, ?_, rfl, ?_⟩
    · rw [List.length_take,
        (List.perm_insertionSort (fun a b : SessionRow => b.mtime ≤ a.mtime)
          (sessionRows ex home ps cutoff fmtIso)).length_eq]
    · exact List.Pairwise.sublist (List.take_sublist _ _)
        (List.sorted_insertionSort (fun a b : SessionRow => b.mtime ≤ a.mtime)
          (sessionRows ex home ps cutoff fmtIso))
    · intro s hs
      have h1 := List.mem_of_mem_take hs
      exact (List.perm_insertionSort (fun a b : SessionRow => b.mtime ≤ a.mtime)
        (sessionRows ex home ps cutoff fmtIso)).subset h1

theorem processUsageFile_skip (cutoff : Int) (cs : String) (fmtDay : Int → String)
    (st : UState) (f : SFile) (h : f.mtime < cutoff) :
    processUsageFile cutoff cs fmtDay st f = st := by
  unfold processUsageFile
  by_cases hok : (!f.ok) = true
  · rw [if_pos hok]
  · rw [if_neg hok, if_pos h]

theorem processSessionFile_skip (cutoff : Int) (fmtIso : Int → String) (pd : String)
    (acc : List SessionRow) (f : SFile) (h : f.mtime < cutoff) :
    processSessionFile cutoff fmtIso pd acc f = acc := by
  unfold processSessionFile
  by_cases hok : (!f.ok) = true
  · rw [if_pos hok]
  · rw [if_neg hok, if_pos h]

/-- A log line whose single usage record is dated 2020-01-01, far
before the example window. -/
def c3_line : Line :=
  { has_usage := true,
    parsed := some { timestamp := "2020-01-01T00:00:00Z", model := some "m1",
                     message := some { usage := some { input_tokens := 7, output_tokens := 3 } } } }

/-- A one-file tree holding `c3_line`, with a file modification time
inside the window (`mtime = 100 > cutoff = 0`). -/
def c3_tree : Option (List Project) :=
  some [{ folder := "proj", files := [{ name := "s.jsonl", mtime := 100, lines := [c3_line] }] }]

/-- C3 counterexample: a session file whose single usage record is
dated before the cutoff day (2020-01-01 < 2024-05-30, the day string of
`now − days`), while the file itself was modified inside the window.
The record is outside the requested window, yet the usage query still
counts the session (`totalSessions = 1`, refuting "no increment of any
session count") and the sessions query still emits a session row
carrying the stale record's tokens (it never compares record
timestamps against the cutoff), refuting "no session row". -/
theorem stale_record_still_contributes :
    strLt (pyTake "2020-01-01T00:00:00Z" 10) (demoFmt 0) = true
    ∧ (compute_usage c3_tree 0 demoFmt 7).totalSessions = 1
    ∧ (compute_usage c3_tree 0 demoFmt 7).byModel = []
    ∧ (compute_sessions c3_tree (fun _ => false) "/home/u" 0 demoFmt 7 50).total = 1
    ∧ ((compute_sessions c3_tree (fun _ => false) "/home/u" 0 demoFmt 7 50).sessions.map
        (fun s => (s.primaryModel, s.totalInput, s.totalOutput))) = [("m1", 7, 3)] := by
  refine ⟨by decide, by decide, by decide, by decide, by decide⟩

/-- C3 amended: a session file whose modification time is before the
cutoff contributes nothing to either query: removing it from its
project leaves both outputs unchanged (no token counts, no day bucket,
no session row, no session count). A file modified inside the window
does contribute even when its only record is dated outside the window:
the usage query still counts the session and the sessions query still
accumulates the stale record's usage. -/
theorem stale_file_contributes_nothing
    (cutoff : Int) (fmtDay fmtIso : Int → String) (ex : List String → Bool) (home : String)
    (days limit : Nat) (ps1 ps2 : List Project) (folder : String) (isDir : Bool)
    (pre post : List SFile) (f : SFile) (hf : f.mtime < cutoff) :
    compute_usage (some (ps1 ++ { folder := folder, isDir := isDir, files := pre ++ f :: post } :: ps2))
        cutoff fmtDay days
      = compute_usage (some (ps1 ++ { folder := folder, isDir := isDir, files := pre ++ post } :: ps2))
        cutoff fmtDay days
    ∧ compute_sessions (some (ps1 ++ { folder := folder, isDir := isDir, files := pre ++ f :: post } :: ps2))
        ex home cutoff fmtIso days limit
      = compute_sessions (some (ps1 ++ { folder := folder, isDir := isDir, files := pre ++ post } :: ps2))
        ex home cutoff fmtIso days limit := by
  constructor
  · have hfile : ∀ st : UState,
        (pre ++ f :: post).foldl (processUsageFile cutoff (fmtDay cutoff) fmtDay) st
          = (pre ++ post).foldl (processUsageFile cutoff (fmtDay cutoff) fmtDay) st := by
      intro st
      rw [List.foldl_append, List.foldl_append, List.foldl_cons,
        processUsageFile_skip cutoff (fmtDay cutoff) fmtDay _ f hf]
    have hproj : ∀ st : UState,
        usageProjStep cutoff (fmtDay cutoff) fmtDay st
            { folder := folder, isDir := isDir, files := pre ++ f :: post }
          = usageProjStep cutoff (fmtDay cutoff) fmtDay st
            { folder := folder, isDir := isDir, files := pre ++ post } := by
      intro st
      unfold usageProjStep
      dsimp only
      split
      · rfl
      · exact hfile st
    have hfold :
        (ps1 ++ { folder := folder, isDir := isDir, files := pre ++ f :: post } :: ps2).foldl
            (usageProjStep cutoff (fmtDay cutoff) fmtDay) ({} : UState)
          = (ps1 ++ { folder := folder, isDir := isDir, files := pre ++ post } :: ps2).foldl
            (usageProjStep cutoff (fmtDay cutoff) fmtDay) ({} : UState) := by
      rw [List.foldl_append, List.foldl_append, List.foldl_cons, List.foldl_cons, hproj]
    unfold compute_usage
    dsimp only
    rw [hfold]
  · have hfile : ∀ (acc : List SessionRow) (pd : String),
        (pre ++ f :: post).foldl (processSessionFile cutoff fmtIso pd) acc
          = (pre ++ post).foldl (processSessionFile cutoff fmtIso pd) acc := by
      intro acc pd
      rw [List.foldl_append, List.foldl_append, List.foldl_cons,
        processSessionFile_skip cutoff fmtIso pd _ f hf]
    have hproj : ∀ acc : List SessionRow,
        sessionsProjStep ex home cutoff fmtIso acc
            { folder := folder, isDir := isDir, files := pre ++ f :: post }
          = sessionsProjStep ex home cutoff fmtIso acc
            { folder := folder, isDir := isDir, files := pre ++ post } := by
      intro acc
      unfold sessionsProjStep
      dsimp only
      split
      · rfl
      · exact hfile acc _
    have hfold :
        sessionRows ex home
            (ps1 ++ { folder := folder, isDir := isDir, files := pre ++ f :: post } :: ps2)
            cutoff fmtIso
          = sessionRows ex home
            (ps1 ++ { folder := folder, isDir := isDir, files := pre ++ post } :: ps2)
            cutoff fmtIso := by
      unfold sessionRows
      rw [List.foldl_append, List.foldl_append, List.foldl_cons, List.foldl_cons, hproj]
    unfold compute_sessions
    dsimp only
    rw [hfold]

/-- A session file modified before the example cutoff (`mtime = -5 < 0`). -/
def c3_staleFile : SFile := { name := "s.jsonl", mtime := -5, lines := [c3_line] }

/-- C3 amended witness: at the concrete tree, deleting a file with
modification time before the cutoff leaves both query outputs
unchanged. -/
theorem stale_file_contributes_nothing_witness :
    compute_usage (some [{ folder := "proj", isDir := true, files := [c3_staleFile] }]) 0 demoFmt 7
      = compute_usage (some [{ folder := "proj", isDir := true, files := [] }]) 0 demoFmt 7
    ∧ compute_sessions (some [{ folder := "proj", isDir := true, files := [c3_staleFile] }])
        (fun _ => false) "/home/u" 0 demoFmt 7 50
      = compute_sessions (some [{ folder := "proj", isDir := true, files := [] }])
        (fun _ => false) "/home/u" 0 demoFmt 7 50 :=
  stale_file_contributes_nothing 0 demoFmt demoFmt (fun _ => false) "/home/u" 7 50
    [] [] "proj" true [] [] c3_staleFile (by decide)

/-- A log line inside the window whose usage carries only cache-read
tokens, so its model tally has zero input+output. -/
def c4_line : Line :=
  { has_usage := true,
    parsed := some { timestamp := "2024-06-01T08:00:00Z", model := some "m1",
                     message := some { usage := some { cache_read_input_tokens := 5 } } } }

/-- A one-file tree holding `c4_line`, file modified inside the window. -/
def c4_tree : Option (List Project) :=
  some [{ folder := "proj", files := [{ name := "s.jsonl", mtime := 50, lines := [c4_line] }] }]

/-- C4: on a tree whose only record carries cache-read tokens but zero
input+output, the model bucket is dropped from the day's `models`
mapping, yet the day bucket itself survives — `byDay` contains an entry
with an empty models mapping (the source filters days on the unfiltered
dict, `if models`, which is always non-empty). The spec's invariant
"a day with no non-zero usage is dropped from output" is violated. -/
theorem day_bucket_with_no_surviving_models_kept :
    (compute_usage c4_tree 0 demoFmt 7).byDay
      = [{ date := "2024-06-01", models := [], sessions := 1 }]
    ∧ (compute_usage c4_tree 0 demoFmt 7).byModel = [] := by
  refine ⟨by decide, by decide⟩

/-! ### C8: `estimatedCost` placement -/

/-- A log line inside the window with non-zero input and output. -/
def c8_line : Line :=
  { has_usage := true,
    parsed := some { timestamp := "2024-06-01T08:00:00Z", model := some "m1",
                     message := some { usage := some { input_tokens := 10, output_tokens := 5 } } } }

/-- A one-file tree holding `c8_line`. -/
def c8_tree : Option (List Project) :=
  some [{ folder := "proj", files := [{ name := "s.jsonl", mtime := 50, lines := [c8_line] }] }]

/-- C8 counterexample: on a concrete tree the single `byDay` bucket's
model entry carries no `estimatedCost` (`isSome = false`), while the
corresponding top-level `byModel` entry does (`isSome = true`): the
per-day model entries are not ModelUsage values with a derived cost. -/
theorem byDay_entry_lacks_estimatedCost :
    ((compute_usage c8_tree 0 demoFmt 7).byDay.map
        (fun b => (b.date, b.models.map (fun p => (p.1, p.2.estimatedCost.isSome)))))
      = [("2024-06-01", [("m1", false)])]
    ∧ ((compute_usage c8_tree 0 demoFmt 7).byModel.map
        (fun p => (p.1, p.2.estimatedCost.isSome))) = [("m1", true)] := by
  refine ⟨by decide, by decide⟩

/-- Every tally in an association list still has its `estimatedCost`
key absent. -/
def TalliesNone (l : List (String × Tally)) : Prop :=
  ∀ p ∈ l, p.2.estimatedCost = none

theorem addUsage_estimatedCost (t : Tally) (u : UsagePayload) :
    (addUsage t u).estimatedCost = t.estimatedCost := rfl

theorem alBump_none {l : List (String × Tally)} (k : String) (u : UsagePayload)
    (h : TalliesNone l) : TalliesNone (alBump l k u) := by
  induction l with
  | nil =>
    intro p hp
    simp [alBump] at hp
    subst hp
    rfl
  | cons q rest ih =>
    intro p hp
    rw [alBump] at hp
    rcases q with ⟨k', v⟩
    by_cases hk : k' = k
    · rw [if_pos hk] at hp
      rcases List.mem_cons.mp hp with h1 | h1
      · subst h1
        rw [addUsage_estimatedCost]
        exact h (k', v) (by simp)
      · exact h p (List.mem_cons_of_mem _ h1)
    · rw [if_neg hk] at hp
      rcases List.mem_cons.mp hp with h1 | h1
      · subst h1
        exact h (k', v) (by simp)
      · exact ih (fun q hq => h q (List.mem_cons_of_mem _ hq)) p h1

theorem alBumpDay_none {l : List (String × List (String × Tally))} (day k : String)
    (u : UsagePayload) (h : ∀ d ∈ l, TalliesNone d.2) :
    ∀ d ∈ alBumpDay l day k u, TalliesNone d.2 := by
  induction l with
  | nil =>
    intro d hd
    simp [alBumpDay] at hd
    subst hd
    exact alBump_none k u (by intro p hp; simp at hp)
  | cons q rest ih =>
    intro d hd
    rw [alBumpDay] at hd
    rcases q with ⟨d', m⟩
    by_cases hk : d' = day
    · rw [if_pos hk] at hd
      rcases List.mem_cons.mp hd with h1 | h1
      · subst h1
        exact alBump_none k u (h (d', m) (by simp))
      · exact h d (List.mem_cons_of_mem _ h1)
    · rw [if_neg hk] at hd
      rcases List.mem_cons.mp hd with h1 | h1
      · subst h1
        exact h (d', m) (by simp)
      · exact ih (fun q hq => h q (List.mem_cons_of_mem _ hq)) d h1

/-- The accumulator invariant: no tally has seen an `estimatedCost` yet. -/
def UInv (st : UState) : Prop :=
  TalliesNone st.by_model ∧ ∀ d ∈ st.by_day, TalliesNone d.2

theorem processUsageLine_inv (cs sd : String) (st : UState) (ln : Line)
    (h : UInv st) : UInv (processUsageLine cs sd st ln) := by
  unfold processUsageLine
  dsimp only
  repeat' split <;> try exact h
  all_goals exact ⟨alBump_none _ _ h.1, alBumpDay_none _ _ _ h.2⟩

theorem foldl_inv {α β : Type} (P : β → Prop) (f : β → α → β) (l : List α) (init : β)
    (hinit : P init) (hstep : ∀ b a, P b → P (f b a)) : P (l.foldl f init) := by
  induction l generalizing init with
  | nil => exact hinit
  | cons a t ih => exact ih (f init a) (hstep init a hinit)

theorem processUsageFile_inv (cutoff : Int) (cs : String) (fmtDay : Int → String)
    (st : UState) (f : SFile) (h : UInv st) :
    UInv (processUsageFile cutoff cs fmtDay st f) := by
  unfold processUsageFile
  split
  · exact h
  · split
    · exact h
    · have hmid : UInv { st with sessions_by_day := alIncr st.sessions_by_day (fmtDay f.mtime) } :=
        ⟨h.1, h.2⟩
      exact foldl_inv UInv _ _ _ hmid
        (fun st' ln h' => processUsageLine_inv _ _ st' ln h')


theorem usageProjStep_inv (cutoff : Int) (cs : String) (fmtDay : Int → String)
    (st : UState) (proj : Project) (h : UInv st) :
    UInv (usageProjStep cutoff cs fmtDay st proj) := by
  unfold usageProjStep
  split
  · exact h
  · exact foldl_inv UInv _ _ _ h
      (fun st' f h' => processUsageFile_inv cutoff cs fmtDay st' f h')

/-- C8 amended: the model entries inside `byDay` buckets are raw
tallies — their `estimatedCost` key is never set — while every
top-level `byModel` entry carries `estimatedCost` equal to the cost of
its tally rounded to 4 decimal places. Only `byModel` entries are full
ModelUsage values. -/
theorem byDay_raw_byModel_costed (tree : Option (List Project)) (cutoff : Int)
    (fmtDay : Int → String) (days : Nat) :
    (∀ b ∈ (compute_usage tree cutoff fmtDay days).byDay, ∀ p ∈ b.models,
        p.2.estimatedCost = none)
    ∧ (∀ p ∈ (compute_usage tree cutoff fmtDay days).byModel,
        p.2.estimatedCost = some (round_py 4 (_cost p.1 p.2))) := by
  cases tree with
  | none =>
    constructor
    · intro b hb
      simp [compute_usage] at hb
    · intro p hp
      simp [compute_usage] at hp
  | some ps =>
    have hst : UInv (ps.foldl (usageProjStep cutoff (fmtDay cutoff) fmtDay) ({} : UState)) := by
      refine foldl_inv UInv _ ps _ ⟨?_, ?_⟩
        (fun st proj h => usageProjStep_inv cutoff (fmtDay cutoff) fmtDay st proj h)
      · intro p hp
        simp at hp
      · intro d hd
        simp at hd
    unfold compute_usage
    dsimp only
    constructor
    · intro b hb p hp
      have hb' := (List.perm_insertionSort (fun a b : DayBucket => b.date ≤ a.date) _).subset hb
      rcases List.mem_map.mp hb' with ⟨q, hq, rfl⟩
      have hq' := List.mem_of_mem_filter hq
      unfold tallyFilter at hp
      have hp' := List.mem_of_mem_filter hp
      exact hst.2 q hq' p hp'
    · intro p hp
      rcases List.mem_map.mp hp with ⟨q, hq, rfl⟩
      rfl

/-- The raw by-day tally of the `c8_tree` scenario. -/
def c8_dayTally : Tally :=
  { input := 10, output := 5, cacheRead := 0, cacheWrite := 0, estimatedCost := none }

/-- C8 amended witness: the concrete by-day model entry of `c8_tree`
has no `estimatedCost`. -/
theorem byDay_raw_byModel_costed_witness :
    (("m1", c8_dayTally) : String × Tally).2.estimatedCost = none :=
  (byDay_raw_byModel_costed c8_tree 0 demoFmt 7).1
    { date := "2024-06-01", models := [("m1", c8_dayTally)], sessions := 1 }
    (by decide) ("m1", c8_dayTally) (by decide)

end SessionsDash
